import Mathlib

/-!
Shallow embedding of the Poultry record-keeping service:
the zod validation schemas and the HTTP route handlers for the
Employee entity (src/unnamed/part_002) and the EggInventory entity
(src/src/app/api/egg-inventory/route.ts), together with the Prisma
data model (src/unnamed/part_000).

JSON request bodies are modelled as association lists of string keys
to JSON values; JavaScript numbers are modelled as rationals; the
database is a list of records.  `new Date(s)` / `Date.parse(s)` are
modelled by explicit function parameters (`dValid`, `dParse`, `isoDay`),
since the claims never depend on the internals of date parsing, only on
equality of parsed values.
-/

/-- A JSON value, as far as the validation layer inspects it.
JavaScript numbers are modelled as rationals. -/
inductive JVal where
  | num (q : ℚ)
  | str (s : String)
  | boolean (b : Bool)
  | null
  deriving DecidableEq

/-- A JSON object body: an association list from keys to values. -/
def JObj := List (String × JVal)

instance : DecidableEq JObj := by unfold JObj; infer_instance

/-- Key lookup in a JSON object (first binding wins, as for JSON objects). -/
def jget : JObj → String → Option JVal
  | [], _ => none
  | (k', v) :: rest, k => if k' = k then some v else jget rest k

/-- Remove every binding of key `k0` from a body. -/
def stripKey : JObj → String → JObj
  | [], _ => []
  | (k', v) :: rest, k0 =>
    if k' = k0 then stripKey rest k0 else (k', v) :: stripKey rest k0

/-- Keep only the bindings whose key occurs in `ks`. -/
def keepKeys : JObj → List String → JObj
  | [], _ => []
  | (k', v) :: rest, ks =>
    if ks.contains k' then (k', v) :: keepKeys rest ks else keepKeys rest ks

theorem jget_stripKey (b : JObj) (k0 k : String) (h : k ≠ k0) :
    jget (stripKey b k0) k = jget b k := by
  induction b with
  | nil => rfl
  | cons p rest ih =>
    obtain ⟨k', v⟩ := p
    by_cases hk : k' = k0
    · have hkk : k' ≠ k := fun he => h (he ▸ hk)
      simp only [stripKey, if_pos hk, jget, if_neg hkk, ih]
    · by_cases hkk : k' = k
      · simp only [stripKey, if_neg hk, jget, if_pos hkk]
      · simp only [stripKey, if_neg hk, jget, if_neg hkk, ih]

theorem jget_keepKeys (b : JObj) (ks : List String) (k : String)
    (h : ks.contains k = true) :
    jget (keepKeys b ks) k = jget b k := by
  induction b with
  | nil => rfl
  | cons p rest ih =>
    obtain ⟨k', v⟩ := p
    by_cases hk : ks.contains k' = true
    · by_cases hkk : k' = k
      · simp only [keepKeys, hk, if_true, jget, if_pos hkk]
      · simp only [keepKeys, hk, if_true, jget, if_neg hkk, ih]
    · have hkb : ks.contains k' = false := by
        cases hcb : ks.contains k' with
        | false => rfl
        | true => exact absurd hcb hk
      have hkk : k' ≠ k := by
        intro he; subst he; rw [h] at hkb; cases hkb
      simp only [keepKeys, hkb, Bool.false_eq_true, if_false, jget,
        if_neg hkk, ih]

/-! ### Field validators (zod chains) -/

/-- `z.string().min(lo).max(hi)` : the value must be a string whose length
is between `lo` and `hi`. -/
def zStr (lo hi : Nat) : JVal → Option String
  | .str s => if lo ≤ s.length ∧ s.length ≤ hi then some s else none
  | _ => none

/-- `z.string().regex(/^\d{n}$/)` : exactly `n` ASCII digits. -/
def zDigits (n : Nat) : JVal → Option String
  | .str s => if s.length = n ∧ s.data.all Char.isDigit then some s else none
  | _ => none

/-- `z.number().min(lo).max(hi)`. -/
def zNumRange (lo hi : ℚ) : JVal → Option ℚ
  | .num q => if lo ≤ q ∧ q ≤ hi then some q else none
  | _ => none

/-- `z.number().min(lo)`. -/
def zNumMin (lo : ℚ) : JVal → Option ℚ
  | .num q => if lo ≤ q then some q else none
  | _ => none

/-- `z.number().int().min(0)` : a non-negative integer-valued number. -/
def zCount : JVal → Option ℚ
  | .num q => if q.den = 1 ∧ 0 ≤ q then some q else none
  | _ => none

/-- `z.string().refine((date) => !isNaN(Date.parse(date)))`, with the
JavaScript date-parse validity test supplied as the parameter `dValid`. -/
def zDateStr (dValid : String → Bool) : JVal → Option String
  | .str s => if dValid s then some s else none
  | _ => none

/-- A required schema field: the key must be present and validate. -/
def reqField (b : JObj) (k : String) (f : JVal → Option α) : Option α :=
  (jget b k).bind f

/-- An optional schema field (from `.partial()`): an absent key is fine,
a present key must validate. -/
def optField (b : JObj) (k : String) (f : JVal → Option α) : Option (Option α) :=
  match jget b k with
  | none => some none
  | some v => (f v).map some

theorem reqField_congr (b b' : JObj) (k : String) (f : JVal → Option α)
    (h : jget b k = jget b' k) : reqField b k f = reqField b' k f := by
  unfold reqField; rw [h]

theorem optField_congr (b b' : JObj) (k : String) (f : JVal → Option α)
    (h : jget b k = jget b' k) : optField b k f = optField b' k f := by
  unfold optField; rw [h]

/-! ### Employee schema (src/unnamed/part_002, lines 8–19) -/

inductive Gender where
  | MALE | FEMALE | OTHER
  deriving DecidableEq

inductive MaritalStatus where
  | BACHELOR | MARRIED | HAS_FAMILY
  deriving DecidableEq

/-- `z.enum(['MALE', 'FEMALE', 'OTHER'])`. -/
def zGender : JVal → Option Gender
  | .str "MALE" => some .MALE
  | .str "FEMALE" => some .FEMALE
  | .str "OTHER" => some .OTHER
  | _ => none

/-- `z.enum(['BACHELOR', 'MARRIED', 'HAS_FAMILY'])`. -/
def zMarital : JVal → Option MaritalStatus
  | .str "BACHELOR" => some .BACHELOR
  | .str "MARRIED" => some .MARRIED
  | .str "HAS_FAMILY" => some .HAS_FAMILY
  | _ => none

/-- The value produced by a successful `employeeSchema.parse`. -/
structure EmployeeInput where
  fullName : String
  age : ℚ
  gender : Gender
  maritalStatus : MaritalStatus
  phoneNumber : String
  aadharNumber : String
  salary : ℚ
  workEmployedToDo : String
  deriving DecidableEq

/-- `employeeSchema.parse(body)` — note that `age` carries no `.int()`
check in the source, and zod object parsing strips undeclared keys. -/
def parseEmployee (b : JObj) : Option EmployeeInput :=
  (reqField b "fullName" (zStr 1 100)).bind fun fn =>
  (reqField b "age" (zNumRange 18 100)).bind fun age =>
  (reqField b "gender" zGender).bind fun g =>
  (reqField b "maritalStatus" zMarital).bind fun m =>
  (reqField b "phoneNumber" (zDigits 10)).bind fun ph =>
  (reqField b "aadharNumber" (zDigits 12)).bind fun ad =>
  (reqField b "salary" (zNumMin 1)).bind fun sal =>
  (reqField b "workEmployedToDo" (zStr 10 1000)).bind fun w =>
  some ⟨fn, age, g, m, ph, ad, sal, w⟩

/-- The value produced by a successful `updateEmployeeSchema.parse`
(`employeeSchema.partial()`): every field optional. -/
structure EmployeePatch where
  fullName : Option String
  age : Option ℚ
  gender : Option Gender
  maritalStatus : Option MaritalStatus
  phoneNumber : Option String
  aadharNumber : Option String
  salary : Option ℚ
  workEmployedToDo : Option String
  deriving DecidableEq

/-- `updateEmployeeSchema.parse(body)`. -/
def parseEmployeePatch (b : JObj) : Option EmployeePatch :=
  (optField b "fullName" (zStr 1 100)).bind fun fn =>
  (optField b "age" (zNumRange 18 100)).bind fun age =>
  (optField b "gender" zGender).bind fun g =>
  (optField b "maritalStatus" zMarital).bind fun m =>
  (optField b "phoneNumber" (zDigits 10)).bind fun ph =>
  (optField b "aadharNumber" (zDigits 12)).bind fun ad =>
  (optField b "salary" (zNumMin 1)).bind fun sal =>
  (optField b "workEmployedToDo" (zStr 10 1000)).bind fun w =>
  some ⟨fn, age, g, m, ph, ad, sal, w⟩

/-- The keys declared by `employeeSchema`. -/
def empKeys : List String :=
  ["fullName", "age", "gender", "maritalStatus",
   "phoneNumber", "aadharNumber", "salary", "workEmployedToDo"]

theorem parseEmployee_congr (b b' : JObj)
    (h : ∀ k, empKeys.contains k = true → jget b k = jget b' k) :
    parseEmployee b = parseEmployee b' := by
  unfold parseEmployee
  rw [reqField_congr b b' "fullName" _ (h _ (by decide)),
      reqField_congr b b' "age" _ (h _ (by decide)),
      reqField_congr b b' "gender" _ (h _ (by decide)),
      reqField_congr b b' "maritalStatus" _ (h _ (by decide)),
      reqField_congr b b' "phoneNumber" _ (h _ (by decide)),
      reqField_congr b b' "aadharNumber" _ (h _ (by decide)),
      reqField_congr b b' "salary" _ (h _ (by decide)),
      reqField_congr b b' "workEmployedToDo" _ (h _ (by decide))]

theorem parseEmployeePatch_congr (b b' : JObj)
    (h : ∀ k, empKeys.contains k = true → jget b k = jget b' k) :
    parseEmployeePatch b = parseEmployeePatch b' := by
  unfold parseEmployeePatch
  rw [optField_congr b b' "fullName" _ (h _ (by decide)),
      optField_congr b b' "age" _ (h _ (by decide)),
      optField_congr b b' "gender" _ (h _ (by decide)),
      optField_congr b b' "maritalStatus" _ (h _ (by decide)),
      optField_congr b b' "phoneNumber" _ (h _ (by decide)),
      optField_congr b b' "aadharNumber" _ (h _ (by decide)),
      optField_congr b b' "salary" _ (h _ (by decide)),
      optField_congr b b' "workEmployedToDo" _ (h _ (by decide))]

/-! ### Employee records and route handlers (src/unnamed/part_002) -/

/-- A persisted Employee row (Prisma model `Employee`, src/unnamed/part_000).
`age` and `salary` are stored as the JavaScript numbers the route hands to
the persistence layer; timestamps are abstract instants. -/
structure Employee where
  id : String
  fullName : String
  age : ℚ
  gender : Gender
  maritalStatus : MaritalStatus
  phoneNumber : String
  aadharNumber : String
  salary : ℚ
  workEmployedToDo : String
  createdAt : Nat
  updatedAt : Nat
  deriving DecidableEq

/-- `prisma.employee.create({ data: validatedData })` with a generated id
and `@default(now())` / `@updatedAt` timestamps. -/
def mkEmployee (newId : String) (d : EmployeeInput) (now : Nat) : Employee :=
  ⟨newId, d.fullName, d.age, d.gender, d.maritalStatus,
   d.phoneNumber, d.aadharNumber, d.salary, d.workEmployedToDo, now, now⟩

/-- Outcome of the Employee POST handler. -/
inductive EmpPostResult where
  | invalid
  | conflict
  | created (e : Employee)
  deriving DecidableEq

/-- HTTP status the POST handler attaches to each outcome. -/
def empPostStatus : EmpPostResult → Nat
  | .invalid => 400
  | .conflict => 400
  | .created _ => 201

/-- POST /api/employees (src/unnamed/part_002, lines 85–128): validate,
reject when the Aadhar number already exists, otherwise persist.
Returns the outcome together with the resulting database. -/
def employeePOST (db : List Employee) (body : JObj) (newId : String)
    (now : Nat) : EmpPostResult × List Employee :=
  match parseEmployee body with
  | none => (.invalid, db)
  | some d =>
    match db.find? (fun e => e.aadharNumber == d.aadharNumber) with
    | some _ => (.conflict, db)
    | none => (.created (mkEmployee newId d now), db ++ [mkEmployee newId d now])

/-- Outcome of a PUT handler (shared shape for both entities). -/
inductive UpdResult (α : Type) where
  | invalid
  | notFound
  | conflict
  | updated (r : α)
  deriving DecidableEq

/-- HTTP status the PUT handlers attach to each outcome. -/
def updStatus : UpdResult α → Nat
  | .invalid => 400
  | .notFound => 404
  | .conflict => 400
  | .updated _ => 200

/-- `prisma.employee.update({ where: { id }, data: validatedData })`:
supplied fields overwrite, absent fields keep their stored values, and
`@updatedAt` refreshes the `updatedAt` column. -/
def applyEmployeePatch (e : Employee) (p : EmployeePatch) (now : Nat) :
    Employee :=
  { e with
    fullName := p.fullName.getD e.fullName
    age := p.age.getD e.age
    gender := p.gender.getD e.gender
    maritalStatus := p.maritalStatus.getD e.maritalStatus
    phoneNumber := p.phoneNumber.getD e.phoneNumber
    aadharNumber := p.aadharNumber.getD e.aadharNumber
    salary := p.salary.getD e.salary
    workEmployedToDo := p.workEmployedToDo.getD e.workEmployedToDo
    updatedAt := now }

/-- PUT /api/employees?id=... (src/unnamed/part_002, lines 131–199):
validate the sparse patch, 404 when the id is absent, re-check Aadhar
uniqueness only when a truthy Aadhar value differing from the stored one
is supplied, otherwise persist the patch. -/
def employeePUT (db : List Employee) (id : String) (body : JObj)
    (now : Nat) : UpdResult Employee × List Employee :=
  match parseEmployeePatch body with
  | none => (.invalid, db)
  | some p =>
    match db.find? (fun e => e.id == id) with
    | none => (.notFound, db)
    | some ex =>
      if (match p.aadharNumber with
          | some a => a != "" && a != ex.aadharNumber
              && (db.find? (fun e : Employee => e.aadharNumber == a)).isSome
          | none => false)
      then (.conflict, db)
      else
        let e' := applyEmployeePatch ex p now
        (.updated e', db.map (fun e : Employee => if e.id == id then e' else e))

/-! ### EggInventory schema and route handlers
(src/src/app/api/egg-inventory/route.ts) -/

/-- The value produced by a successful `eggInventorySchema.parse`:
a date string (validated parseable) and three non-negative integer counts. -/
structure EggInput where
  date : String
  crack_eggs : ℚ
  jumbo_eggs : ℚ
  normal_eggs : ℚ
  deriving DecidableEq

/-- `eggInventorySchema.parse(body)` (route.ts lines 8–15). -/
def parseEggInput (dValid : String → Bool) (b : JObj) : Option EggInput :=
  (reqField b "date" (zDateStr dValid)).bind fun dt =>
  (reqField b "crack_eggs" zCount).bind fun c =>
  (reqField b "jumbo_eggs" zCount).bind fun j =>
  (reqField b "normal_eggs" zCount).bind fun n =>
  some ⟨dt, c, j, n⟩

/-- The value produced by a successful `updateEggInventorySchema.parse`
(`eggInventorySchema.partial()`, route.ts line 17). -/
structure EggPatch where
  date : Option String
  crack_eggs : Option ℚ
  jumbo_eggs : Option ℚ
  normal_eggs : Option ℚ
  deriving DecidableEq

/-- `updateEggInventorySchema.parse(body)`. -/
def parseEggPatch (dValid : String → Bool) (b : JObj) : Option EggPatch :=
  (optField b "date" (zDateStr dValid)).bind fun dt =>
  (optField b "crack_eggs" zCount).bind fun c =>
  (optField b "jumbo_eggs" zCount).bind fun j =>
  (optField b "normal_eggs" zCount).bind fun n =>
  some ⟨dt, c, j, n⟩

/-- The keys declared by `eggInventorySchema`. -/
def eggKeys : List String :=
  ["date", "crack_eggs", "jumbo_eggs", "normal_eggs"]

theorem parseEggInput_congr (dValid : String → Bool) (b b' : JObj)
    (h : ∀ k, eggKeys.contains k = true → jget b k = jget b' k) :
    parseEggInput dValid b = parseEggInput dValid b' := by
  unfold parseEggInput
  rw [reqField_congr b b' "date" _ (h _ (by decide)),
      reqField_congr b b' "crack_eggs" _ (h _ (by decide)),
      reqField_congr b b' "jumbo_eggs" _ (h _ (by decide)),
      reqField_congr b b' "normal_eggs" _ (h _ (by decide))]

theorem parseEggPatch_congr (dValid : String → Bool) (b b' : JObj)
    (h : ∀ k, eggKeys.contains k = true → jget b k = jget b' k) :
    parseEggPatch dValid b = parseEggPatch dValid b' := by
  unfold parseEggPatch
  rw [optField_congr b b' "date" _ (h _ (by decide)),
      optField_congr b b' "crack_eggs" _ (h _ (by decide)),
      optField_congr b b' "jumbo_eggs" _ (h _ (by decide)),
      optField_congr b b' "normal_eggs" _ (h _ (by decide))]

/-- A persisted EggInventory row (Prisma model `EggInventory`,
src/unnamed/part_000).  `date` holds the value of the JavaScript `Date`
built from the request's date string by the parameter `dParse`. -/
structure EggInventory where
  id : String
  date : Int
  crack_eggs : ℚ
  jumbo_eggs : ℚ
  normal_eggs : ℚ
  total_eggs : ℚ
  created_at : Nat
  updated_at : Nat
  deriving DecidableEq

/-- Outcome of the EggInventory POST handler. -/
inductive EggPostResult where
  | invalid
  | conflict
  | created (r : EggInventory)
  deriving DecidableEq

/-- HTTP status the POST handler attaches to each outcome. -/
def eggPostStatus : EggPostResult → Nat
  | .invalid => 400
  | .conflict => 400
  | .created _ => 201

/-- The row created by POST (route.ts lines 113–122): `total_eggs` is the
sum computed on line 97, timestamps come from the Prisma defaults. -/
def mkEggInventory (newId : String) (dParse : String → Int) (d : EggInput)
    (now : Nat) : EggInventory :=
  ⟨newId, dParse d.date, d.crack_eggs, d.jumbo_eggs, d.normal_eggs,
   d.crack_eggs + d.jumbo_eggs + d.normal_eggs, now, now⟩

/-- POST /api/egg-inventory (route.ts lines 89–143): validate, compute
`total_eggs`, reject when a row with the identical date already exists,
otherwise persist. -/
def eggPOST (dValid : String → Bool) (dParse : String → Int)
    (db : List EggInventory) (body : JObj) (newId : String) (now : Nat) :
    EggPostResult × List EggInventory :=
  match parseEggInput dValid body with
  | none => (.invalid, db)
  | some d =>
    match db.find? (fun r : EggInventory => r.date == dParse d.date) with
    | some _ => (.conflict, db)
    | none =>
      (.created (mkEggInventory newId dParse d now),
       db ++ [mkEggInventory newId dParse d now])

/-- The row written by PUT (route.ts lines 192–208): supplied fields
overwrite, `total_eggs` is recomputed from the merged view when any count
is supplied and kept otherwise, `@updatedAt` refreshes `updated_at`. -/
def applyEggPatch (r : EggInventory) (p : EggPatch)
    (dParse : String → Int) (now : Nat) : EggInventory :=
  let total :=
    if p.crack_eggs.isSome || p.jumbo_eggs.isSome || p.normal_eggs.isSome
    then (p.crack_eggs.getD r.crack_eggs) + (p.jumbo_eggs.getD r.jumbo_eggs)
         + (p.normal_eggs.getD r.normal_eggs)
    else r.total_eggs
  { r with
    date := (p.date.map dParse).getD r.date
    crack_eggs := p.crack_eggs.getD r.crack_eggs
    jumbo_eggs := p.jumbo_eggs.getD r.jumbo_eggs
    normal_eggs := p.normal_eggs.getD r.normal_eggs
    total_eggs := total
    updated_at := now }

/-- PUT /api/egg-inventory?id=... (route.ts lines 146–229): validate the
sparse patch, 404 when the id is absent, re-check date uniqueness against
the other rows only when a truthy date string differing from the stored
date's ISO day is supplied, otherwise persist the merged row.  `isoDay`
models `existingInventory.date.toISOString().split('T')[0]`. -/
def eggPUT (dValid : String → Bool) (dParse : String → Int)
    (isoDay : Int → String) (db : List EggInventory) (id : String)
    (body : JObj) (now : Nat) : UpdResult EggInventory × List EggInventory :=
  match parseEggPatch dValid body with
  | none => (.invalid, db)
  | some p =>
    match db.find? (fun r : EggInventory => r.id == id) with
    | none => (.notFound, db)
    | some ex =>
      if (match p.date with
          | some ds => ds != "" && ds != isoDay ex.date
              && (db.find? (fun r : EggInventory =>
                    r.date == dParse ds && r.id != id)).isSome
          | none => false)
      then (.conflict, db)
      else
        let r' := applyEggPatch ex p dParse now
        (.updated r', db.map (fun r : EggInventory => if r.id == id then r' else r))

/-! ### List endpoints (GET without id) for both entities -/

/-- `needle` is a leading segment of `hay`. -/
def leadsWith : List Char → List Char → Bool
  | [], _ => true
  | _ :: _, [] => false
  | a :: as, b :: bs => a == b && leadsWith as bs

/-- `needle` occurs as a contiguous segment of `hay`. -/
def hasSeg (needle : List Char) : List Char → Bool
  | [] => needle.isEmpty
  | c :: t => leadsWith needle (c :: t) || hasSeg needle t

/-- Prisma `{ contains: needle }` on a string column. -/
def strContains (hay needle : String) : Bool :=
  hasSeg needle.data hay.data

/-- Prisma `{ contains: needle, mode: 'insensitive' }`. -/
def strContainsCI (hay needle : String) : Bool :=
  hasSeg (needle.data.map Char.toLower) (hay.data.map Char.toLower)

/-- The employee-list search filter (src/unnamed/part_002, lines 48–54). -/
def empMatches (search : String) (e : Employee) : Bool :=
  strContainsCI e.fullName search || strContains e.phoneNumber search
  || strContains e.aadharNumber search

/-- The shape of a paginated list response. -/
structure PageOut (α : Type) where
  items : List α
  page : Nat
  limit : Nat
  total : Nat
  totalPages : Nat

/-- `Math.ceil(total / limit)` on natural numbers (exact for `0 < limit`). -/
def jsCeilDiv (total limit : Nat) : Nat := (total + limit - 1) / limit

theorem jsCeilDiv_eq_ceil (t L : Nat) (hL : 0 < L) :
    jsCeilDiv t L = ⌈(t : ℚ) / (L : ℚ)⌉₊ := by
  have key : ∀ n : ℕ, (jsCeilDiv t L ≤ n ↔ ⌈(t : ℚ) / (L : ℚ)⌉₊ ≤ n) := by
    intro n
    have hL' : (0 : ℚ) < (L : ℚ) := by exact_mod_cast hL
    rw [Nat.ceil_le, div_le_iff₀ hL']
    unfold jsCeilDiv
    rw [Nat.div_le_iff_le_mul_add_pred hL]
    have hcast : ((n : ℚ) * (L : ℚ)) = ((n * L : ℕ) : ℚ) := by push_cast; ring
    rw [hcast, Nat.cast_le, Nat.mul_comm n L]
    generalize L * n = m
    omega
  exact Nat.le_antisymm ((key _).2 le_rfl) ((key _).1 le_rfl)

/-- `orderBy: { createdAt: 'desc' }` — later-created records first. -/
def empLater (a b : Employee) : Prop := b.createdAt ≤ a.createdAt

instance : DecidableRel empLater := fun a b => Nat.decLe b.createdAt a.createdAt

instance : IsTotal Employee empLater := ⟨fun a b => le_total b.createdAt a.createdAt⟩

instance : IsTrans Employee empLater := ⟨fun _ _ _ h1 h2 => le_trans h2 h1⟩

/-- `orderBy: { date: 'desc' }` — later dates first. -/
def eggLater (a b : EggInventory) : Prop := b.date ≤ a.date

instance : DecidableRel eggLater := fun a b => Int.decLe b.date a.date

instance : IsTotal EggInventory eggLater := ⟨fun a b => le_total b.date a.date⟩

instance : IsTrans EggInventory eggLater := ⟨fun _ _ _ h1 h2 => le_trans h2 h1⟩

/-- GET /api/employees without id (src/unnamed/part_002, lines 46–74):
filter by search, order by creation time descending, page with
`skip = (page-1)*limit`, report `total` and `totalPages`. -/
def employeeGETlist (db : List Employee) (page limit : Nat)
    (search : String) : PageOut Employee :=
  let skip := (page - 1) * limit
  let filtered := if search ≠ "" then db.filter (empMatches search) else db
  let sorted := List.insertionSort empLater filtered
  ⟨(sorted.drop skip).take limit, page, limit, filtered.length,
   jsCeilDiv filtered.length limit⟩

/-- The egg-inventory date-range filter (route.ts lines 49–58). -/
def eggInRange (dParse : String → Int) (startDate endDate : Option String)
    (r : EggInventory) : Bool :=
  (match startDate with
   | some s => decide (dParse s ≤ r.date)
   | none => true) &&
  (match endDate with
   | some e => decide (r.date ≤ dParse e)
   | none => true)

/-- GET /api/egg-inventory without id (route.ts lines 45–78): filter by
the optional date range, order by date descending, page with
`skip = (page-1)*limit`, report `total` and `totalPages`. -/
def eggGETlist (dParse : String → Int) (db : List EggInventory)
    (page limit : Nat) (startDate endDate : Option String) :
    PageOut EggInventory :=
  let skip := (page - 1) * limit
  let filtered := db.filter (eggInRange dParse startDate endDate)
  let sorted := List.insertionSort eggLater filtered
  ⟨(sorted.drop skip).take limit, page, limit, filtered.length,
   jsCeilDiv filtered.length limit⟩

/-! ### Concrete values used by the witnesses -/

/-- A trivial date-validity test instantiating the `dValid` parameter. -/
def wV : String → Bool := fun _ => true

/-- A trivial date-parse function instantiating the `dParse` parameter. -/
def wP : String → Int := fun _ => 0

/-- A trivial ISO-day function instantiating the `isoDay` parameter. -/
def wIso : Int → String := fun _ => "x"

/-- The spec's example create body for EggInventory. -/
def c1PostBody : JObj :=
  [("date", JVal.str "2024-01-01"), ("crack_eggs", JVal.num 5),
   ("jumbo_eggs", JVal.num 2), ("normal_eggs", JVal.num 93)]

/-- The row created from `c1PostBody`. -/
def c1Rec : EggInventory := ⟨"e1", 0, 5, 2, 93, 100, 7, 7⟩

/-- The spec's example patch body for EggInventory. -/
def c1PutBody : JObj := [("jumbo_eggs", JVal.num 3)]

/-- The row after applying `c1PutBody` to `c1Rec`. -/
def c1Rec2 : EggInventory := ⟨"e1", 0, 5, 3, 93, 101, 7, 9⟩


/-! ### C1 -/

/-- C1: after a successful EggInventory create, and after every successful
update starting from a database in which every row satisfies the total
invariant, the resulting row satisfies
`total_eggs = crack_eggs + jumbo_eggs + normal_eggs`; on update the sum
is recomputed from the merged view whenever any count is supplied. -/
theorem eggInventory_total_invariant :
    (∀ (dValid : String → Bool) (dParse : String → Int)
        (db db' : List EggInventory) (body : JObj) (newId : String)
        (now : Nat) (r : EggInventory),
        eggPOST dValid dParse db body newId now = (.created r, db') →
        r.total_eggs = r.crack_eggs + r.jumbo_eggs + r.normal_eggs) ∧
    (∀ (dValid : String → Bool) (dParse : String → Int)
        (isoDay : Int → String) (db db' : List EggInventory) (id : String)
        (body : JObj) (now : Nat) (r : EggInventory),
        (∀ x ∈ db, x.total_eggs = x.crack_eggs + x.jumbo_eggs + x.normal_eggs) →
        eggPUT dValid dParse isoDay db id body now = (.updated r, db') →
        r.total_eggs = r.crack_eggs + r.jumbo_eggs + r.normal_eggs) := by
  constructor
  · intro dValid dParse db db' body newId now r h
    unfold eggPOST at h
    cases hp : parseEggInput dValid body with
    | none => rw [hp] at h; simp at h
    | some d =>
      rw [hp] at h
      dsimp only at h
      cases hf : db.find? (fun r : EggInventory => r.date == dParse d.date) with
      | some _ => rw [hf] at h; simp at h
      | none =>
        rw [hf] at h
        dsimp only at h
        injection h with h1 h2
        injection h1 with h3
        rw [← h3]
        rfl
  · intro dValid dParse isoDay db db' id body now r hinv h
    unfold eggPUT at h
    cases hp : parseEggPatch dValid body with
    | none => rw [hp] at h; simp at h
    | some p =>
      rw [hp] at h
      dsimp only at h
      cases hf : db.find? (fun r : EggInventory => r.id == id) with
      | none => rw [hf] at h; simp at h
      | some ex =>
        rw [hf] at h
        dsimp only at h
        have hex : ex ∈ db := List.mem_of_find?_eq_some hf
        by_cases hc : (match p.date with
            | some ds => ds != "" && ds != isoDay ex.date
                && (db.find? (fun r : EggInventory =>
                      r.date == dParse ds && r.id != id)).isSome
            | none => false) = true
        · rw [if_pos hc] at h; simp at h
        · rw [if_neg hc] at h
          injection h with h1 h2
          injection h1 with h3
          rw [← h3]
          show (applyEggPatch ex p dParse now).total_eggs = _
          unfold applyEggPatch
          by_cases hC : (p.crack_eggs.isSome || p.jumbo_eggs.isSome
              || p.normal_eggs.isSome) = true
          · simp only [hC, if_true]
          · have hcr : p.crack_eggs = none := by
              cases hcc : p.crack_eggs with
              | none => rfl
              | some _ => rw [hcc] at hC; simp at hC
            have hj : p.jumbo_eggs = none := by
              cases hcc : p.jumbo_eggs with
              | none => rfl
              | some _ => rw [hcc] at hC; simp at hC
            have hn : p.normal_eggs = none := by
              cases hcc : p.normal_eggs with
              | none => rfl
              | some _ => rw [hcc] at hC; simp at hC
            simp only [hC, Bool.false_eq_true, if_false, hcr, hj, hn,
              Option.getD_none]
            exact hinv ex hex

/-- Evaluation of the POST handler on the spec's example create body. -/
theorem c1_post_run :
    eggPOST wV wP [] c1PostBody "e1" 7 = (.created c1Rec, [c1Rec]) := by
  simp [eggPOST, parseEggInput, reqField, jget, zDateStr, zCount,
    wV, wP, c1PostBody, mkEggInventory, c1Rec] <;> norm_num

/-- Evaluation of the PUT handler on the spec's example patch body. -/
theorem c1_put_run :
    eggPUT wV wP wIso [c1Rec] "e1" c1PutBody 9 = (.updated c1Rec2, [c1Rec2]) := by
  simp [eggPUT, parseEggPatch, optField, jget, zCount,
    wV, wP, wIso, c1PutBody, c1Rec, c1Rec2, applyEggPatch] <;> norm_num

/-- Witness for C1: the spec's running example — create
`{date, crack:5, jumbo:2, normal:93}` (total 100), then patch
`{jumbo:3}` (total 101). -/
theorem eggInventory_total_invariant_witness :
    c1Rec.total_eggs = c1Rec.crack_eggs + c1Rec.jumbo_eggs + c1Rec.normal_eggs ∧
    c1Rec2.total_eggs = c1Rec2.crack_eggs + c1Rec2.jumbo_eggs + c1Rec2.normal_eggs :=
  ⟨eggInventory_total_invariant.1 wV wP [] [c1Rec] c1PostBody "e1" 7 c1Rec
      c1_post_run,
   eggInventory_total_invariant.2 wV wP wIso [c1Rec] [c1Rec2] "e1" c1PutBody 9
      c1Rec2 (by norm_num [c1Rec]) c1_put_run⟩

/-! ### C2 -/

/-- Create body for the C2 witness: carries a bogus `total_eggs` key. -/
def c2Body : JObj :=
  [("date", JVal.str "2024-01-02"), ("crack_eggs", JVal.num 1),
   ("jumbo_eggs", JVal.num 2), ("normal_eggs", JVal.num 3),
   ("total_eggs", JVal.num 999)]

/-- The row created from `c2Body`: `total_eggs` is 6, not the supplied 999. -/
def c2Rec : EggInventory := ⟨"g1", 0, 1, 2, 3, 6, 4, 4⟩

/-- C2: the stored `total_eggs` is computed by the service from the three
count fields; a `total_eggs` value in the request body never influences
either handler (removing every `total_eggs` binding from the body leaves
the result of POST and PUT unchanged), and a created row's `total_eggs`
is the sum of its three counts. -/
theorem eggInventory_total_untrusted :
    (∀ (dValid : String → Bool) (dParse : String → Int)
        (db : List EggInventory) (body : JObj) (newId : String) (now : Nat),
        eggPOST dValid dParse db (stripKey body "total_eggs") newId now =
          eggPOST dValid dParse db body newId now) ∧
    (∀ (dValid : String → Bool) (dParse : String → Int)
        (isoDay : Int → String) (db : List EggInventory) (id : String)
        (body : JObj) (now : Nat),
        eggPUT dValid dParse isoDay db id (stripKey body "total_eggs") now =
          eggPUT dValid dParse isoDay db id body now) ∧
    (∀ (dValid : String → Bool) (dParse : String → Int)
        (db db' : List EggInventory) (body : JObj) (newId : String)
        (now : Nat) (r : EggInventory),
        eggPOST dValid dParse db body newId now = (.created r, db') →
        r.total_eggs = r.crack_eggs + r.jumbo_eggs + r.normal_eggs) := by
  have hjget : ∀ (body : JObj) (k : String), eggKeys.contains k = true →
      jget (stripKey body "total_eggs") k = jget body k := by
    intro body k hk
    refine jget_stripKey body "total_eggs" k ?_
    intro he
    subst he
    exact absurd hk (by decide)
  refine ⟨?_, ?_, ?_⟩
  · intro dValid dParse db body newId now
    unfold eggPOST
    rw [parseEggInput_congr dValid (stripKey body "total_eggs") body
      (hjget body)]
  · intro dValid dParse isoDay db id body now
    unfold eggPUT
    rw [parseEggPatch_congr dValid (stripKey body "total_eggs") body
      (hjget body)]
  · intro dValid dParse db db' body newId now r h
    unfold eggPOST at h
    cases hp : parseEggInput dValid body with
    | none => rw [hp] at h; simp at h
    | some d =>
      rw [hp] at h
      dsimp only at h
      cases hf : db.find? (fun r : EggInventory => r.date == dParse d.date) with
      | some _ => rw [hf] at h; simp at h
      | none =>
        rw [hf] at h
        dsimp only at h
        injection h with h1 h2
        injection h1 with h3
        rw [← h3]
        rfl

/-- Evaluation of POST on a body that smuggles `total_eggs: 999`:
the stored row still has `total_eggs = 1 + 2 + 3 = 6`. -/
theorem c2_post_run :
    eggPOST wV wP [] c2Body "g1" 4 = (.created c2Rec, [c2Rec]) := by
  simp [eggPOST, parseEggInput, reqField, jget, zDateStr, zCount,
    wV, wP, c2Body, mkEggInventory, c2Rec] <;> norm_num

/-- Witness for C2: the created row's total is the sum of its counts even
though the request body carried `total_eggs: 999`. -/
theorem eggInventory_total_untrusted_witness :
    c2Rec.total_eggs = c2Rec.crack_eggs + c2Rec.jumbo_eggs + c2Rec.normal_eggs :=
  eggInventory_total_untrusted.2.2 wV wP [] [c2Rec] c2Body "g1" 4 c2Rec
    c2_post_run

/-! ### C3 -/

/-- The spec's example Employee create body. -/
def empBody : JObj :=
  [("fullName", JVal.str "Asha Rao"), ("age", JVal.num 30),
   ("gender", JVal.str "FEMALE"), ("maritalStatus", JVal.str "MARRIED"),
   ("phoneNumber", JVal.str "9876543210"),
   ("aadharNumber", JVal.str "123456789012"), ("salary", JVal.num 50000),
   ("workEmployedToDo", JVal.str "Supervises packaging line.")]

/-- The validated value of `empBody`. -/
def empInput : EmployeeInput :=
  ⟨"Asha Rao", 30, .FEMALE, .MARRIED, "9876543210", "123456789012", 50000,
   "Supervises packaging line."⟩

/-- `empBody` validates to `empInput`. -/
theorem empBody_parses : parseEmployee empBody = some empInput := by
  have h1 : "9876543210".length = 10 ∧ "9876543210".data.all Char.isDigit := by
    decide
  have h2 : "123456789012".length = 12
      ∧ "123456789012".data.all Char.isDigit := by decide
  have h3 : 1 ≤ "Asha Rao".length ∧ "Asha Rao".length ≤ 100 := by decide
  have h4 : 10 ≤ "Supervises packaging line.".length
      ∧ "Supervises packaging line.".length ≤ 1000 := by decide
  simp [parseEmployee, reqField, jget, zStr, zNumRange, zGender, zMarital,
    zDigits, zNumMin, empBody, empInput, h1.1, h1.2, h2.1, h2.2,
    h3.1, h3.2, h4.1, h4.2] <;> norm_num

/-- C3: when some employee already holds the Aadhar number of a valid
create body, POST answers Conflict (HTTP 400) and leaves the database
unchanged; when none does, POST appends exactly the new record built from
the input with the generated id and timestamps and answers 201. -/
theorem employee_create_aadhar_conflict :
    ∀ (db : List Employee) (body : JObj) (newId : String) (now : Nat)
      (d : EmployeeInput),
      parseEmployee body = some d →
      ((∃ e ∈ db, e.aadharNumber = d.aadharNumber) →
        employeePOST db body newId now = (.conflict, db) ∧
        empPostStatus (employeePOST db body newId now).1 = 400) ∧
      ((∀ e ∈ db, e.aadharNumber ≠ d.aadharNumber) →
        employeePOST db body newId now =
          (.created (mkEmployee newId d now), db ++ [mkEmployee newId d now]) ∧
        empPostStatus (employeePOST db body newId now).1 = 201) := by
  intro db body newId now d hp
  constructor
  · rintro ⟨e, he, ha⟩
    have hs : (db.find? (fun x : Employee =>
        x.aadharNumber == d.aadharNumber)).isSome = true := by
      rw [List.find?_isSome]
      exact ⟨e, he, by simp [ha]⟩
    cases hf : db.find? (fun x : Employee =>
        x.aadharNumber == d.aadharNumber) with
    | none => rw [hf] at hs; simp at hs
    | some _ =>
      unfold employeePOST
      rw [hp]
      dsimp only
      rw [hf]
      exact ⟨rfl, rfl⟩
  · intro hall
    have hf : db.find? (fun x : Employee =>
        x.aadharNumber == d.aadharNumber) = none := by
      rw [List.find?_eq_none]
      intro e he
      simpa using hall e he
    unfold employeePOST
    rw [hp]
    dsimp only
    rw [hf]
    exact ⟨rfl, rfl⟩

/-- A stored employee holding the example Aadhar number. -/
def empRec : Employee :=
  ⟨"m1", "Asha Rao", 30, .FEMALE, .MARRIED, "9876543210", "123456789012",
   50000, "Supervises packaging line.", 5, 5⟩

/-- Witness for C3: against `[empRec]` the example create conflicts with
status 400; against the empty database it creates with status 201. -/
theorem employee_create_aadhar_conflict_witness :
    (employeePOST [empRec] empBody "m2" 6 = (.conflict, [empRec]) ∧
      empPostStatus (employeePOST [empRec] empBody "m2" 6).1 = 400) ∧
    (employeePOST [] empBody "m1" 5 =
        (.created (mkEmployee "m1" empInput 5), [] ++ [mkEmployee "m1" empInput 5]) ∧
      empPostStatus (employeePOST [] empBody "m1" 5).1 = 201) :=
  ⟨(employee_create_aadhar_conflict [empRec] empBody "m2" 6 empInput
      empBody_parses).1 ⟨empRec, by simp, by simp [empRec, empInput]⟩,
   (employee_create_aadhar_conflict [] empBody "m1" 5 empInput
      empBody_parses).2 (by simp)⟩

/-! ### C4 -/

/-- C4: with a valid patch supplying a (non-empty) Aadhar number `a` for a
record `ex` found by id — if `a` differs from the stored value, the update
conflicts exactly when some other record holds `a` (the re-check excludes
`ex` itself, which cannot hold `a`), and succeeds when no other record
holds `a`; if `a` equals the stored value, the update succeeds with no
uniqueness re-check. -/
theorem employee_update_aadhar_conflict :
    ∀ (db : List Employee) (id : String) (body : JObj) (now : Nat)
      (p : EmployeePatch) (ex : Employee) (a : String),
      parseEmployeePatch body = some p →
      db.find? (fun e : Employee => e.id == id) = some ex →
      p.aadharNumber = some a → a ≠ "" →
      ((a ≠ ex.aadharNumber ∧ ∃ e ∈ db, e ≠ ex ∧ e.aadharNumber = a) →
        employeePUT db id body now = (.conflict, db)) ∧
      ((a ≠ ex.aadharNumber ∧ ∀ e ∈ db, e = ex ∨ e.aadharNumber ≠ a) →
        employeePUT db id body now =
          (.updated (applyEmployeePatch ex p now),
           db.map (fun e : Employee =>
             if e.id == id then applyEmployeePatch ex p now else e))) ∧
      (a = ex.aadharNumber →
        employeePUT db id body now =
          (.updated (applyEmployeePatch ex p now),
           db.map (fun e : Employee =>
             if e.id == id then applyEmployeePatch ex p now else e))) := by
  intro db id body now p ex a hp hf hpa hne
  have hput : employeePUT db id body now =
      if (match p.aadharNumber with
          | some a => a != "" && a != ex.aadharNumber
              && (db.find? (fun e : Employee => e.aadharNumber == a)).isSome
          | none => false)
      then (.conflict, db)
      else (.updated (applyEmployeePatch ex p now),
            db.map (fun e : Employee =>
              if e.id == id then applyEmployeePatch ex p now else e)) := by
    unfold employeePUT
    rw [hp]
    dsimp only
    rw [hf]
  refine ⟨?_, ?_, ?_⟩
  · rintro ⟨hdiff, e, he, hneq, ha⟩
    have hs : (db.find? (fun e : Employee =>
        e.aadharNumber == a)).isSome = true := by
      rw [List.find?_isSome]
      exact ⟨e, he, by simp [ha]⟩
    have hcond : (match p.aadharNumber with
        | some a => a != "" && a != ex.aadharNumber
            && (db.find? (fun e : Employee => e.aadharNumber == a)).isSome
        | none => false) = true := by
      rw [hpa]
      simp only [Bool.and_eq_true, bne_iff_ne]
      exact ⟨⟨hne, hdiff⟩, hs⟩
    rw [hput, if_pos hcond]
  · rintro ⟨hdiff, hall⟩
    have hfn : db.find? (fun e : Employee => e.aadharNumber == a) = none := by
      rw [List.find?_eq_none]
      intro e he
      rcases hall e he with h | h
      · subst h
        simp [Ne.symm hdiff]
      · simp [h]
    have hcond : (match p.aadharNumber with
        | some a => a != "" && a != ex.aadharNumber
            && (db.find? (fun e : Employee => e.aadharNumber == a)).isSome
        | none => false) = false := by
      rw [hpa]
      dsimp only
      rw [hfn]
      simp
    rw [hput, hcond]
    simp
  · intro heq
    have hcond : (match p.aadharNumber with
        | some a => a != "" && a != ex.aadharNumber
            && (db.find? (fun e : Employee => e.aadharNumber == a)).isSome
        | none => false) = false := by
      rw [hpa]
      simp [heq]
    rw [hput, hcond]
    simp

/-- A second stored employee with a different Aadhar number. -/
def empRec3 : Employee :=
  ⟨"m2", "Bela Sen", 40, .MALE, .BACHELOR, "9123456789", "999988887777",
   60000, "Maintains machines.", 6, 6⟩

/-- Patch giving `empRec` the Aadhar number already held by `empRec3`. -/
def c4BodyOther : JObj := [("aadharNumber", JVal.str "999988887777")]

/-- The validated value of `c4BodyOther`. -/
def c4PatchOther : EmployeePatch :=
  ⟨none, none, none, none, none, some "999988887777", none, none⟩

/-- Patch re-supplying `empRec`'s own Aadhar number. -/
def c4BodyOwn : JObj := [("aadharNumber", JVal.str "123456789012")]

/-- The validated value of `c4BodyOwn`. -/
def c4PatchOwn : EmployeePatch :=
  ⟨none, none, none, none, none, some "123456789012", none, none⟩

/-- `c4BodyOther` validates to `c4PatchOther`. -/
theorem c4BodyOther_parses :
    parseEmployeePatch c4BodyOther = some c4PatchOther := by
  have h1 : "999988887777".length = 12
      ∧ "999988887777".data.all Char.isDigit := by decide
  simp [parseEmployeePatch, optField, jget, zStr, zNumRange, zGender,
    zMarital, zDigits, zNumMin, c4BodyOther, c4PatchOther, h1.1, h1.2]

/-- `c4BodyOwn` validates to `c4PatchOwn`. -/
theorem c4BodyOwn_parses :
    parseEmployeePatch c4BodyOwn = some c4PatchOwn := by
  have h1 : "123456789012".length = 12
      ∧ "123456789012".data.all Char.isDigit := by decide
  simp [parseEmployeePatch, optField, jget, zStr, zNumRange, zGender,
    zMarital, zDigits, zNumMin, c4BodyOwn, c4PatchOwn, h1.1, h1.2]

/-- Witness for C4: with `[empRec, empRec3]` in store, patching `empRec`
to `empRec3`'s Aadhar number conflicts; re-supplying its own succeeds. -/
theorem employee_update_aadhar_conflict_witness :
    employeePUT [empRec, empRec3] "m1" c4BodyOther 8 =
      (.conflict, [empRec, empRec3]) ∧
    employeePUT [empRec, empRec3] "m1" c4BodyOwn 8 =
      (.updated (applyEmployeePatch empRec c4PatchOwn 8),
       [empRec, empRec3].map (fun e : Employee =>
         if e.id == "m1" then applyEmployeePatch empRec c4PatchOwn 8 else e)) :=
  ⟨(employee_update_aadhar_conflict [empRec, empRec3] "m1" c4BodyOther 8
      c4PatchOther empRec "999988887777" c4BodyOther_parses
      (by simp [empRec, empRec3]) rfl (by decide)).1
      ⟨by simp [empRec], empRec3, by simp, by simp [empRec, empRec3, empInput],
        by simp [empRec3]⟩,
   (employee_update_aadhar_conflict [empRec, empRec3] "m1" c4BodyOwn 8
      c4PatchOwn empRec "123456789012" c4BodyOwn_parses
      (by simp [empRec, empRec3]) rfl (by decide)).2.2 (by simp [empRec])⟩

/-! ### C5 -/

/-- The example create body with the non-integer age 18.5. -/
def c5Body : JObj :=
  [("fullName", JVal.str "Asha Rao"), ("age", JVal.num (37/2)),
   ("gender", JVal.str "FEMALE"), ("maritalStatus", JVal.str "MARRIED"),
   ("phoneNumber", JVal.str "9876543210"),
   ("aadharNumber", JVal.str "123456789012"), ("salary", JVal.num 50000),
   ("workEmployedToDo", JVal.str "Supervises packaging line.")]

/-- The validated value of `c5Body` — validation lets age 18.5 through. -/
def c5Input : EmployeeInput :=
  ⟨"Asha Rao", 37/2, .FEMALE, .MARRIED, "9876543210", "123456789012", 50000,
   "Supervises packaging line."⟩

/-- C5 evidence: `employeeSchema` (no `.int()` on `age`) accepts the
non-integer age 18.5, although the Prisma column `Employee.age` is `Int`;
the claim's "any non-integer age is rejected with a validation error"
fails on this input. -/
theorem employee_age_noninteger_accepted :
    parseEmployee c5Body = some c5Input ∧ c5Input.age.den ≠ 1 := by
  constructor
  · have h1 : "9876543210".length = 10 ∧ "9876543210".data.all Char.isDigit := by
      decide
    have h2 : "123456789012".length = 12
        ∧ "123456789012".data.all Char.isDigit := by decide
    have h3 : 1 ≤ "Asha Rao".length ∧ "Asha Rao".length ≤ 100 := by decide
    have h4 : 10 ≤ "Supervises packaging line.".length
        ∧ "Supervises packaging line.".length ≤ 1000 := by decide
    have h5 : (18 : ℚ) ≤ 37/2 ∧ (37 : ℚ)/2 ≤ 100 := by norm_num
    simp [parseEmployee, reqField, jget, zStr, zNumRange, zGender, zMarital,
      zDigits, zNumMin, c5Body, c5Input, h1.1, h1.2, h2.1, h2.2,
      h3.1, h3.2, h4.1, h4.2, h5.1, h5.2]
  · show ((37 : ℚ)/2).den ≠ 1
    intro h
    have h2 := (Rat.den_eq_one_iff _).mp h
    have h3 : (2 : ℚ) * ((((37 : ℚ)/2).num : ℤ) : ℚ) = 37 := by
      rw [h2]; norm_num
    have h4 : (2 * ((37 : ℚ)/2).num : ℤ) = 37 := by exact_mod_cast h3
    omega

/-! ### C6 -/

/-- The example create body with salary one half (a positive value). -/
def c6Body : JObj :=
  [("fullName", JVal.str "Asha Rao"), ("age", JVal.num 30),
   ("gender", JVal.str "FEMALE"), ("maritalStatus", JVal.str "MARRIED"),
   ("phoneNumber", JVal.str "9876543210"),
   ("aadharNumber", JVal.str "123456789012"), ("salary", JVal.num (1/2)),
   ("workEmployedToDo", JVal.str "Supervises packaging line.")]

/-- C6 counterexample: salary `1/2` is strictly positive, yet the schema
(`z.number().min(1)`) rejects the body. -/
theorem employee_salary_half_rejected :
    parseEmployee c6Body = none ∧ (0 : ℚ) < 1/2 := by
  constructor
  · have hs : ¬((1 : ℚ) ≤ 1/2) := by norm_num
    simp [parseEmployee, reqField, jget, zStr, zNumRange, zGender, zMarital,
      zDigits, zNumMin, c6Body, hs] <;> norm_num
  · norm_num

/-- A create body identical to the example except for the salary `q`. -/
def salaryBody (q : ℚ) : JObj :=
  [("fullName", JVal.str "Asha Rao"), ("age", JVal.num 30),
   ("gender", JVal.str "FEMALE"), ("maritalStatus", JVal.str "MARRIED"),
   ("phoneNumber", JVal.str "9876543210"),
   ("aadharNumber", JVal.str "123456789012"), ("salary", JVal.num q),
   ("workEmployedToDo", JVal.str "Supervises packaging line.")]

/-- C6 amended: with every other field held valid, the schema accepts the
salary value `q` iff `1 ≤ q` (so values in `(0, 1)` are rejected even
though they are strictly positive, and all values `≤ 0` are rejected). -/
theorem employee_salary_min_one (q : ℚ) :
    (parseEmployee (salaryBody q)).isSome = true ↔ 1 ≤ q := by
  have h1 : "9876543210".length = 10 ∧ "9876543210".data.all Char.isDigit := by
    decide
  have h2 : "123456789012".length = 12
      ∧ "123456789012".data.all Char.isDigit := by decide
  have h3 : 1 ≤ "Asha Rao".length ∧ "Asha Rao".length ≤ 100 := by decide
  have h4 : 10 ≤ "Supervises packaging line.".length
      ∧ "Supervises packaging line.".length ≤ 1000 := by decide
  by_cases hq : (1 : ℚ) ≤ q
  · simp [parseEmployee, reqField, jget, zStr, zNumRange, zGender, zMarital,
      zDigits, zNumMin, salaryBody, h1.1, h1.2, h2.1, h2.2, h3.1, h3.2,
      h4.1, h4.2, hq] <;> norm_num
  · simp [parseEmployee, reqField, jget, zStr, zNumRange, zGender, zMarital,
      zDigits, zNumMin, salaryBody, h1.1, h1.2, h2.1, h2.2, h3.1, h3.2,
      h4.1, h4.2, hq] <;> norm_num

/-! ### C7 -/

/-- C7: for both list endpoints (with a positive `limit`), the response
carries back `page` and `limit`, `total` is the size of the filtered
result set, `totalPages` is the exact ceiling of `total / limit`, and the
items are the `skip = (page-1)*limit` slice of the filtered result set
ordered descending (Employee by creation time, EggInventory by date);
the ordered list is a sorted permutation of the filtered result set. -/
theorem list_pagination_correct :
    (∀ (db : List Employee) (page limit : Nat) (search : String),
      0 < limit →
      let filtered := if search ≠ "" then db.filter (empMatches search) else db
      let sorted := List.insertionSort empLater filtered
      let out := employeeGETlist db page limit search
      out.page = page ∧ out.limit = limit ∧ out.total = filtered.length ∧
      out.totalPages = ⌈(filtered.length : ℚ) / (limit : ℚ)⌉₊ ∧
      out.items = (sorted.drop ((page - 1) * limit)).take limit ∧
      List.Sorted empLater sorted ∧ sorted.Perm filtered) ∧
    (∀ (dParse : String → Int) (db : List EggInventory) (page limit : Nat)
        (startDate endDate : Option String),
      0 < limit →
      let filtered := db.filter (eggInRange dParse startDate endDate)
      let sorted := List.insertionSort eggLater filtered
      let out := eggGETlist dParse db page limit startDate endDate
      out.page = page ∧ out.limit = limit ∧ out.total = filtered.length ∧
      out.totalPages = ⌈(filtered.length : ℚ) / (limit : ℚ)⌉₊ ∧
      out.items = (sorted.drop ((page - 1) * limit)).take limit ∧
      List.Sorted eggLater sorted ∧ sorted.Perm filtered) := by
  constructor
  · intro db page limit search hL
    refine ⟨rfl, rfl, rfl, jsCeilDiv_eq_ceil _ _ hL, rfl,
      List.sorted_insertionSort empLater _, List.perm_insertionSort empLater _⟩
  · intro dParse db page limit startDate endDate hL
    refine ⟨rfl, rfl, rfl, jsCeilDiv_eq_ceil _ _ hL, rfl,
      List.sorted_insertionSort eggLater _, List.perm_insertionSort eggLater _⟩

/-- Witness for C7 at `page = 1`, `limit = 10` on one-element stores. -/
theorem list_pagination_correct_witness :
    (employeeGETlist [empRec] 1 10 "").page = 1 ∧
    (eggGETlist wP [c1Rec] 1 10 none none).page = 1 :=
  ⟨(list_pagination_correct.1 [empRec] 1 10 "" (by decide)).1,
   (list_pagination_correct.2 wP [c1Rec] 1 10 none none (by decide)).1⟩

/-! ### C8 -/

/-- C8: a valid EggInventory create conflicts (HTTP 400, database
unchanged) exactly when some stored row has the identical parsed date,
and otherwise appends the new row with status 201; a valid update
supplying a (truthy) date string that differs from the stored row's ISO
day conflicts exactly when some row other than the updated one has the
identical parsed date, and otherwise persists the merged row. -/
theorem eggInventory_date_conflict :
    (∀ (dValid : String → Bool) (dParse : String → Int)
        (db : List EggInventory) (body : JObj) (newId : String) (now : Nat)
        (d : EggInput),
      parseEggInput dValid body = some d →
      ((∃ x ∈ db, x.date = dParse d.date) →
        eggPOST dValid dParse db body newId now = (.conflict, db) ∧
        eggPostStatus (eggPOST dValid dParse db body newId now).1 = 400) ∧
      ((∀ x ∈ db, x.date ≠ dParse d.date) →
        eggPOST dValid dParse db body newId now =
          (.created (mkEggInventory newId dParse d now),
           db ++ [mkEggInventory newId dParse d now]) ∧
        eggPostStatus (eggPOST dValid dParse db body newId now).1 = 201)) ∧
    (∀ (dValid : String → Bool) (dParse : String → Int)
        (isoDay : Int → String) (db : List EggInventory) (id : String)
        (body : JObj) (now : Nat) (p : EggPatch) (ex : EggInventory)
        (ds : String),
      parseEggPatch dValid body = some p →
      db.find? (fun x : EggInventory => x.id == id) = some ex →
      p.date = some ds → ds ≠ "" → ds ≠ isoDay ex.date →
      ((∃ x ∈ db, x.id ≠ id ∧ x.date = dParse ds) →
        eggPUT dValid dParse isoDay db id body now = (.conflict, db)) ∧
      ((∀ x ∈ db, x.id = id ∨ x.date ≠ dParse ds) →
        eggPUT dValid dParse isoDay db id body now =
          (.updated (applyEggPatch ex p dParse now),
           db.map (fun x : EggInventory =>
             if x.id == id then applyEggPatch ex p dParse now else x)))) := by
  constructor
  · intro dValid dParse db body newId now d hp
    constructor
    · rintro ⟨x, hx, hdate⟩
      have hs : (db.find? (fun r : EggInventory =>
          r.date == dParse d.date)).isSome = true := by
        rw [List.find?_isSome]
        exact ⟨x, hx, by simp [hdate]⟩
      cases hf : db.find? (fun r : EggInventory =>
          r.date == dParse d.date) with
      | none => rw [hf] at hs; simp at hs
      | some _ =>
        unfold eggPOST
        rw [hp]
        dsimp only
        rw [hf]
        exact ⟨rfl, rfl⟩
    · intro hall
      have hf : db.find? (fun r : EggInventory =>
          r.date == dParse d.date) = none := by
        rw [List.find?_eq_none]
        intro x hx
        simpa using hall x hx
      unfold eggPOST
      rw [hp]
      dsimp only
      rw [hf]
      exact ⟨rfl, rfl⟩
  · intro dValid dParse isoDay db id body now p ex ds hp hf hpd hne hniso
    have hput : eggPUT dValid dParse isoDay db id body now =
        if (match p.date with
            | some ds => ds != "" && ds != isoDay ex.date
                && (db.find? (fun r : EggInventory =>
                      r.date == dParse ds && r.id != id)).isSome
            | none => false)
        then (.conflict, db)
        else (.updated (applyEggPatch ex p dParse now),
              db.map (fun r : EggInventory =>
                if r.id == id then applyEggPatch ex p dParse now else r)) := by
      unfold eggPUT
      rw [hp]
      dsimp only
      rw [hf]
    constructor
    · rintro ⟨x, hx, hxid, hxdate⟩
      have hs : (db.find? (fun r : EggInventory =>
          r.date == dParse ds && r.id != id)).isSome = true := by
        rw [List.find?_isSome]
        exact ⟨x, hx, by simp [hxdate, hxid]⟩
      have hcond : (match p.date with
          | some ds => ds != "" && ds != isoDay ex.date
              && (db.find? (fun r : EggInventory =>
                    r.date == dParse ds && r.id != id)).isSome
          | none => false) = true := by
        rw [hpd]
        simp only [Bool.and_eq_true, bne_iff_ne]
        exact ⟨⟨hne, hniso⟩, hs⟩
      rw [hput, if_pos hcond]
    · intro hall
      have hfn : db.find? (fun r : EggInventory =>
          r.date == dParse ds && r.id != id) = none := by
        rw [List.find?_eq_none]
        intro x hx
        rcases hall x hx with h | h
        · simp [h]
        · simp [h]
      have hcond : (match p.date with
          | some ds => ds != "" && ds != isoDay ex.date
              && (db.find? (fun r : EggInventory =>
                    r.date == dParse ds && r.id != id)).isSome
          | none => false) = false := by
        rw [hpd]
        dsimp only
        rw [hfn]
        simp
      rw [hput, hcond]
      simp

/-- The validated value of `c1PostBody`. -/
def c1Input : EggInput := ⟨"2024-01-01", 5, 2, 93⟩

/-- `c1PostBody` validates to `c1Input`. -/
theorem c1PostBody_parses : parseEggInput wV c1PostBody = some c1Input := by
  simp [parseEggInput, reqField, jget, zDateStr, zCount, wV, c1PostBody,
    c1Input]

/-- A second stored inventory row with the same parsed date as `c1Rec`. -/
def eggB : EggInventory := ⟨"e2", 0, 1, 1, 1, 3, 2, 2⟩

/-- A patch body that changes only the date. -/
def c8Body : JObj := [("date", JVal.str "2024-01-05")]

/-- The validated value of `c8Body`. -/
def c8Patch : EggPatch := ⟨some "2024-01-05", none, none, none⟩

/-- `c8Body` validates to `c8Patch`. -/
theorem c8Body_parses : parseEggPatch wV c8Body = some c8Patch := by
  simp [parseEggPatch, optField, jget, zDateStr, zCount, wV, c8Body, c8Patch]

/-- Witness for C8: creating a second row for an already-stored date
conflicts, and moving a row onto a date held by a different row
conflicts. -/
theorem eggInventory_date_conflict_witness :
    eggPOST wV wP [c1Rec] c1PostBody "e9" 11 = (.conflict, [c1Rec]) ∧
    eggPUT wV wP wIso [c1Rec, eggB] "e1" c8Body 12 = (.conflict, [c1Rec, eggB]) :=
  ⟨((eggInventory_date_conflict.1 wV wP [c1Rec] c1PostBody "e9" 11 c1Input
      c1PostBody_parses).1 ⟨c1Rec, by simp, by simp [c1Rec, wP]⟩).1,
   (eggInventory_date_conflict.2 wV wP wIso [c1Rec, eggB] "e1" c8Body 12
      c8Patch c1Rec "2024-01-05" c8Body_parses (by simp [c1Rec, eggB])
      rfl (by decide) (by simp [wIso])).1
      ⟨eggB, by simp, by simp [eggB], by simp [eggB, wP]⟩⟩

/-! ### C9 -/

/-- C9: a successful partial update on either entity leaves every field
that the patch does not supply unchanged, except `updatedAt`, which is
set to the update instant; `id` and creation time are untouched; for
EggInventory, `total_eggs` is only modified via recomputation, and is
unchanged when no count is supplied. -/
theorem partial_update_frame :
    (∀ (db db' : List Employee) (id : String) (body : JObj) (now : Nat)
        (p : EmployeePatch) (ex : Employee) (r : Employee),
      parseEmployeePatch body = some p →
      db.find? (fun e : Employee => e.id == id) = some ex →
      employeePUT db id body now = (.updated r, db') →
      r.id = ex.id ∧ r.createdAt = ex.createdAt ∧ r.updatedAt = now ∧
      (p.fullName = none → r.fullName = ex.fullName) ∧
      (p.age = none → r.age = ex.age) ∧
      (p.gender = none → r.gender = ex.gender) ∧
      (p.maritalStatus = none → r.maritalStatus = ex.maritalStatus) ∧
      (p.phoneNumber = none → r.phoneNumber = ex.phoneNumber) ∧
      (p.aadharNumber = none → r.aadharNumber = ex.aadharNumber) ∧
      (p.salary = none → r.salary = ex.salary) ∧
      (p.workEmployedToDo = none → r.workEmployedToDo = ex.workEmployedToDo)) ∧
    (∀ (dValid : String → Bool) (dParse : String → Int)
        (isoDay : Int → String) (db db' : List EggInventory) (id : String)
        (body : JObj) (now : Nat) (p : EggPatch) (ex r : EggInventory),
      parseEggPatch dValid body = some p →
      db.find? (fun x : EggInventory => x.id == id) = some ex →
      eggPUT dValid dParse isoDay db id body now = (.updated r, db') →
      r.id = ex.id ∧ r.created_at = ex.created_at ∧ r.updated_at = now ∧
      (p.date = none → r.date = ex.date) ∧
      (p.crack_eggs = none → r.crack_eggs = ex.crack_eggs) ∧
      (p.jumbo_eggs = none → r.jumbo_eggs = ex.jumbo_eggs) ∧
      (p.normal_eggs = none → r.normal_eggs = ex.normal_eggs) ∧
      (p.crack_eggs = none ∧ p.jumbo_eggs = none ∧ p.normal_eggs = none →
        r.total_eggs = ex.total_eggs)) := by
  constructor
  · intro db db' id body now p ex r hp hf h
    unfold employeePUT at h
    rw [hp] at h
    dsimp only at h
    rw [hf] at h
    dsimp only at h
    by_cases hc : (match p.aadharNumber with
        | some a => a != "" && a != ex.aadharNumber
            && (db.find? (fun e : Employee => e.aadharNumber == a)).isSome
        | none => false) = true
    · rw [if_pos hc] at h
      simp at h
    · rw [if_neg hc] at h
      injection h with h1 h2
      injection h1 with h3
      rw [← h3]
      refine ⟨rfl, rfl, rfl, ?_, ?_, ?_, ?_, ?_, ?_, ?_, ?_⟩ <;>
        (intro hn; simp [applyEmployeePatch, hn])
  · intro dValid dParse isoDay db db' id body now p ex r hp hf h
    unfold eggPUT at h
    rw [hp] at h
    dsimp only at h
    rw [hf] at h
    dsimp only at h
    by_cases hc : (match p.date with
        | some ds => ds != "" && ds != isoDay ex.date
            && (db.find? (fun x : EggInventory =>
                  x.date == dParse ds && x.id != id)).isSome
        | none => false) = true
    · rw [if_pos hc] at h
      simp at h
    · rw [if_neg hc] at h
      injection h with h1 h2
      injection h1 with h3
      rw [← h3]
      refine ⟨rfl, rfl, rfl, ?_, ?_, ?_, ?_, ?_⟩
      · intro hn; simp [applyEggPatch, hn]
      · intro hn; simp [applyEggPatch, hn]
      · intro hn; simp [applyEggPatch, hn]
      · intro hn; simp [applyEggPatch, hn]
      · rintro ⟨h1, h2, h3⟩; simp [applyEggPatch, h1, h2, h3]

/-- A patch body renaming the stored employee. -/
def c9Body : JObj := [("fullName", JVal.str "Asha R Rao")]

/-- The validated value of `c9Body`. -/
def c9Patch : EmployeePatch :=
  ⟨some "Asha R Rao", none, none, none, none, none, none, none⟩

/-- `c9Body` validates to `c9Patch`. -/
theorem c9Body_parses : parseEmployeePatch c9Body = some c9Patch := by
  have h1 : 1 ≤ "Asha R Rao".length ∧ "Asha R Rao".length ≤ 100 := by decide
  simp [parseEmployeePatch, optField, jget, zStr, zNumRange, zGender,
    zMarital, zDigits, zNumMin, c9Body, c9Patch, h1.1, h1.2]

/-- `empRec` after the rename at instant 9. -/
def c9Rec : Employee :=
  ⟨"m1", "Asha R Rao", 30, .FEMALE, .MARRIED, "9876543210", "123456789012",
   50000, "Supervises packaging line.", 5, 9⟩

/-- Evaluation of the Employee PUT handler on the rename patch. -/
theorem c9_emp_run :
    employeePUT [empRec] "m1" c9Body 9 = (.updated c9Rec, [c9Rec]) := by
  have h1 : 1 ≤ "Asha R Rao".length ∧ "Asha R Rao".length ≤ 100 := by decide
  simp [employeePUT, parseEmployeePatch, optField, jget, zStr, zNumRange,
    zGender, zMarital, zDigits, zNumMin, c9Body, empRec, c9Rec,
    applyEmployeePatch, h1.1, h1.2]

/-- The validated value of `c1PutBody`. -/
def c1Patch : EggPatch := ⟨none, none, some 3, none⟩

/-- `c1PutBody` validates to `c1Patch`. -/
theorem c1PutBody_parses : parseEggPatch wV c1PutBody = some c1Patch := by
  simp [parseEggPatch, optField, jget, zDateStr, zCount, wV, c1PutBody,
    c1Patch]

/-- Witness for C9: the rename leaves id, timestamps-of-creation and age
alone while refreshing `updatedAt`; the count patch leaves date and the
other counts alone. -/
theorem partial_update_frame_witness :
    (c9Rec.id = empRec.id ∧ c9Rec.createdAt = empRec.createdAt ∧
      c9Rec.updatedAt = 9 ∧ c9Rec.age = empRec.age) ∧
    (c1Rec2.date = c1Rec.date ∧ c1Rec2.crack_eggs = c1Rec.crack_eggs ∧
      c1Rec2.updated_at = 9) := by
  have he := partial_update_frame.1 [empRec] [c9Rec] "m1" c9Body 9 c9Patch
    empRec c9Rec c9Body_parses (by simp [empRec]) c9_emp_run
  have hg := partial_update_frame.2 wV wP wIso [c1Rec] [c1Rec2] "e1"
    c1PutBody 9 c1Patch c1Rec c1Rec2 c1PutBody_parses (by simp [c1Rec])
    c1_put_run
  exact ⟨⟨he.1, he.2.1, he.2.2.1, he.2.2.2.2.1 rfl⟩,
    ⟨hg.2.2.2.1 rfl, hg.2.2.2.2.1 rfl, hg.2.2.1⟩⟩

/-! ### C10 -/

/-- C10: each schema reads only its declared keys — restricting any body
to the declared key set changes no parse result (so undeclared
properties such as `id`, `total_eggs` or timestamps never cause a
validation error and never reach persistence) — and a successful update
can never change the stored record's `id` or creation timestamp. -/
theorem schema_strips_undeclared :
    (∀ b : JObj, parseEmployee (keepKeys b empKeys) = parseEmployee b) ∧
    (∀ b : JObj, parseEmployeePatch (keepKeys b empKeys) = parseEmployeePatch b) ∧
    (∀ (dValid : String → Bool) (b : JObj),
      parseEggInput dValid (keepKeys b eggKeys) = parseEggInput dValid b) ∧
    (∀ (dValid : String → Bool) (b : JObj),
      parseEggPatch dValid (keepKeys b eggKeys) = parseEggPatch dValid b) ∧
    (∀ (db db' : List Employee) (id : String) (body : JObj) (now : Nat)
        (ex r : Employee),
      db.find? (fun e : Employee => e.id == id) = some ex →
      employeePUT db id body now = (.updated r, db') →
      r.id = ex.id ∧ r.createdAt = ex.createdAt) ∧
    (∀ (dValid : String → Bool) (dParse : String → Int)
        (isoDay : Int → String) (db db' : List EggInventory) (id : String)
        (body : JObj) (now : Nat) (ex r : EggInventory),
      db.find? (fun x : EggInventory => x.id == id) = some ex →
      eggPUT dValid dParse isoDay db id body now = (.updated r, db') →
      r.id = ex.id ∧ r.created_at = ex.created_at) := by
  refine ⟨?_, ?_, ?_, ?_, ?_, ?_⟩
  · intro b
    exact parseEmployee_congr _ _ (fun k hk => jget_keepKeys b empKeys k hk)
  · intro b
    exact parseEmployeePatch_congr _ _ (fun k hk => jget_keepKeys b empKeys k hk)
  · intro dValid b
    exact parseEggInput_congr dValid _ _ (fun k hk => jget_keepKeys b eggKeys k hk)
  · intro dValid b
    exact parseEggPatch_congr dValid _ _ (fun k hk => jget_keepKeys b eggKeys k hk)
  · intro db db' id body now ex r hf h
    unfold employeePUT at h
    cases hp : parseEmployeePatch body with
    | none => rw [hp] at h; simp at h
    | some p =>
      rw [hp] at h
      dsimp only at h
      rw [hf] at h
      dsimp only at h
      by_cases hc : (match p.aadharNumber with
          | some a => a != "" && a != ex.aadharNumber
              && (db.find? (fun e : Employee => e.aadharNumber == a)).isSome
          | none => false) = true
      · rw [if_pos hc] at h
        simp at h
      · rw [if_neg hc] at h
        injection h with h1 h2
        injection h1 with h3
        rw [← h3]
        exact ⟨rfl, rfl⟩
  · intro dValid dParse isoDay db db' id body now ex r hf h
    unfold eggPUT at h
    cases hp : parseEggPatch dValid body with
    | none => rw [hp] at h; simp at h
    | some p =>
      rw [hp] at h
      dsimp only at h
      rw [hf] at h
      dsimp only at h
      by_cases hc : (match p.date with
          | some ds => ds != "" && ds != isoDay ex.date
              && (db.find? (fun x : EggInventory =>
                    x.date == dParse ds && x.id != id)).isSome
          | none => false) = true
      · rw [if_pos hc] at h
        simp at h
      · rw [if_neg hc] at h
        injection h with h1 h2
        injection h1 with h3
        rw [← h3]
        exact ⟨rfl, rfl⟩

/-- Witness for C10: the successful updates of the C9 runs preserved id
and creation timestamp on both entities. -/
theorem schema_strips_undeclared_witness :
    (c9Rec.id = empRec.id ∧ c9Rec.createdAt = empRec.createdAt) ∧
    (c1Rec2.id = c1Rec.id ∧ c1Rec2.created_at = c1Rec.created_at) :=
  ⟨schema_strips_undeclared.2.2.2.2.1 [empRec] [c9Rec] "m1" c9Body 9 empRec
      c9Rec (by simp [empRec]) c9_emp_run,
   schema_strips_undeclared.2.2.2.2.2 wV wP wIso [c1Rec] [c1Rec2] "e1"
      c1PutBody 9 c1Rec c1Rec2 (by simp [c1Rec]) c1_put_run⟩
